import Mathlib

/-!
Verification of the kusanagi event-stream pagination engine and
phase-boundary detection / statistics engine.

The development shallowly embeds the Rust sources:
  * `src/fflogs_api/types.rs`            — shared event payload types
  * `src/fflogs_api/report/events.rs`    — event model and paginated event stream
  * `src/fight_analysis/phase_definition.rs` — phase markers and the marker matcher
  * `src/fight_analysis/analyse_fight.rs`    — phase assembler and report aggregator

Modelling conventions:
  * `u64` timestamps are modelled as `Nat` (with Rust's `u64` subtraction on
    in-range values), `i64`/`i32` ids and counters as `Int`.
  * `f32` values (durations in seconds, rates) are modelled as `Rat`;
    floating-point rounding is abstracted to exact rational arithmetic.
    Unread `f64` debug fields (`debug_multiplier`) are omitted.
  * The remote Event Source (network + JSON layer, out of scope per the spec)
    is modelled as a pure oracle mapping a view and a filter set to the finite
    sequence of pages it would serve for that query, consumed in order; once
    the sequence is exhausted a fetch yields an empty page with no
    continuation timestamp.
  * Calendar-time conversion (`chrono`) is abstracted to the underlying
    millisecond values.
-/

namespace Kusanagi

/-! ## Shared payload types (`src/fflogs_api/types.rs`) -/

structure Resources where
  hp : Option Int
  max_hp : Option Int
  mp : Option Int
  max_mp : Option Int
  tp : Option Int
  max_tp : Option Int
  x : Option Int
  y : Option Int
  facing : Option Int
  absorb : Option Int
deriving DecidableEq, Repr

structure ActorData where
  name : String
  id : Int
  guid : Int
  actor_type : String
  icon : Option String
deriving DecidableEq, Repr

structure Source where
  id : Option Int
  source_data : Option ActorData
  is_friendly : Bool
  resources : Option Resources
deriving DecidableEq, Repr

def Source.get_id (self : Source) : Option Int :=
  match self.id with
  | some id => some id
  | none => self.source_data.map (fun actor => actor.guid)

structure Target where
  id : Option Int
  target_data : Option ActorData
  is_friendly : Bool
  resources : Option Resources
deriving DecidableEq, Repr

def Target.get_id (self : Target) : Option Int :=
  match self.id with
  | some id => some id
  | none => self.target_data.map (fun actor => actor.guid)

structure Ability where
  name : String
  guid : Int
  ability_type : Int
  icon : Option String
deriving DecidableEq, Repr

/-! ## Event model (`src/fflogs_api/report/events.rs`, response structs) -/

structure CalculatedDamage where
  timestamp : Nat
  source : Source
  target : Option Target
  ability : Ability
  hit_type : Option Int
  amount : Option Int
  absorbed_amount : Option Int
  multistrike : Option Bool
  packet_id : Option Int
deriving DecidableEq, Repr

structure Damage where
  timestamp : Nat
  source : Source
  target : Option Target
  ability : Ability
  hit_type : Option Int
  amount : Option Int
  absorbed_amount : Option Int
  multistrike : Option Bool
  packet_id : Option Int
deriving DecidableEq, Repr

structure CalculatedHeal where
  timestamp : Nat
  source : Source
  target : Option Target
  ability : Ability
  hit_type : Option Int
  amount : Option Int
  packet_id : Option Int
deriving DecidableEq, Repr

structure Heal where
  timestamp : Nat
  source : Source
  target : Option Target
  ability : Ability
  hit_type : Option Int
  amount : Option Int
  overheal : Option Int
  packet_id : Option Int
  target_resources : Option Resources
deriving DecidableEq, Repr

structure BeginCast where
  timestamp : Nat
  source : Source
  target : Option Target
  ability : Ability
  packet_id : Option Int
deriving DecidableEq, Repr

structure Cast where
  timestamp : Nat
  source : Source
  target : Option Target
  ability : Ability
  packet_id : Option Int
deriving DecidableEq, Repr

structure ApplyBuff where
  timestamp : Nat
  source : Source
  target : Option Target
  ability : Ability
  packet_id : Option Int
deriving DecidableEq, Repr

structure RefreshBuff where
  timestamp : Nat
  source : Source
  target : Option Target
  ability : Ability
  packet_id : Option Int
deriving DecidableEq, Repr

structure ApplyBuffStack where
  timestamp : Nat
  source : Source
  target : Option Target
  ability : Ability
  stack_count : Int
  packet_id : Option Int
deriving DecidableEq, Repr

structure RemoveBuff where
  timestamp : Nat
  source : Source
  target : Option Target
  ability : Ability
  packet_id : Option Int
deriving DecidableEq, Repr

structure RemoveBuffStack where
  timestamp : Nat
  source : Source
  target : Option Target
  ability : Ability
  stack_count : Int
  packet_id : Option Int
deriving DecidableEq, Repr

structure ApplyDebuff where
  timestamp : Nat
  source : Source
  target : Option Target
  ability : Ability
  packet_id : Option Int
deriving DecidableEq, Repr

structure RefreshDebuff where
  timestamp : Nat
  source : Source
  target : Option Target
  ability : Ability
  packet_id : Option Int
deriving DecidableEq, Repr

structure ApplyDebuffStack where
  timestamp : Nat
  source : Source
  target : Option Target
  ability : Ability
  stack_count : Int
  packet_id : Option Int
deriving DecidableEq, Repr

structure RemoveDebuff where
  timestamp : Nat
  source : Source
  target : Option Target
  ability : Ability
  packet_id : Option Int
deriving DecidableEq, Repr

structure RemoveDebuffStack where
  timestamp : Nat
  source : Source
  target : Option Target
  ability : Ability
  stack_count : Int
  packet_id : Option Int
deriving DecidableEq, Repr

structure Death where
  timestamp : Nat
  source : Source
  target : Option Target
  ability : Option Ability
  killer_id : Option Int
  killing_ability : Option Ability
deriving DecidableEq, Repr

structure LimitBreakUpdate where
  timestamp : Nat
  value : Int
  bars : Int
deriving DecidableEq, Repr

/-- A single event fired during an FFLogs report (`enum ReportEvent`). -/
inductive ReportEvent where
  | CalculatedDamage (ev : CalculatedDamage)
  | Damage (ev : Damage)
  | CalculatedHeal (ev : CalculatedHeal)
  | Heal (ev : Heal)
  | BeginCast (ev : BeginCast)
  | Cast (ev : Cast)
  | ApplyBuff (ev : ApplyBuff)
  | RefreshBuff (ev : RefreshBuff)
  | ApplyBuffStack (ev : ApplyBuffStack)
  | RemoveBuff (ev : RemoveBuff)
  | RemoveBuffStack (ev : RemoveBuffStack)
  | ApplyDebuff (ev : ApplyDebuff)
  | RefreshDebuff (ev : RefreshDebuff)
  | ApplyDebuffStack (ev : ApplyDebuffStack)
  | RemoveDebuff (ev : RemoveDebuff)
  | RemoveDebuffStack (ev : RemoveDebuffStack)
  | Death (ev : Death)
  | LimitBreakUpdate (ev : LimitBreakUpdate)
  | UnparseableEvent
deriving DecidableEq, Repr

/-- `impl Default for ReportEvent` returns `UnparseableEvent`. -/
instance : Inhabited ReportEvent := ⟨ReportEvent.UnparseableEvent⟩

/-- `ReportEvent::get_timestamp`. -/
def ReportEvent.get_timestamp : ReportEvent → Option Nat
  | .CalculatedDamage ev => some ev.timestamp
  | .Damage ev => some ev.timestamp
  | .CalculatedHeal ev => some ev.timestamp
  | .Heal ev => some ev.timestamp
  | .BeginCast ev => some ev.timestamp
  | .Cast ev => some ev.timestamp
  | .ApplyBuff ev => some ev.timestamp
  | .RefreshBuff ev => some ev.timestamp
  | .ApplyBuffStack ev => some ev.timestamp
  | .RemoveBuff ev => some ev.timestamp
  | .RemoveBuffStack ev => some ev.timestamp
  | .ApplyDebuff ev => some ev.timestamp
  | .RefreshDebuff ev => some ev.timestamp
  | .ApplyDebuffStack ev => some ev.timestamp
  | .RemoveDebuff ev => some ev.timestamp
  | .RemoveDebuffStack ev => some ev.timestamp
  | .Death ev => some ev.timestamp
  | .LimitBreakUpdate ev => some ev.timestamp
  | .UnparseableEvent => none

/-! ## Request filters and views (`src/fflogs_api/report/events.rs`) -/

inductive Hostility where
  | Friendly
  | Hostile
deriving DecidableEq, Repr

inductive EventsView where
  | Summary
  | DamageDone
  | DamageTaken
  | Healing
  | Casts
  | Summons
  | Buffs
  | Debuffs
  | Deaths
  | Threat
  | Resources
  | Interrupts
  | Dispels
deriving DecidableEq, Repr

/-- `struct EventFilters` (the `filter : Option<String>` free-form filter is
modelled verbatim as an optional string). -/
structure EventFilters where
  start : Nat
  «end» : Nat
  hostility : Option Hostility
  source_id : Option Int
  source_instance : Option Int
  source_class : Option String
  target_id : Option Int
  target_instance : Option Int
  target_class : Option String
  ability_id : Option Int
  death : Option Int
  options : Option Int
  cutoff : Option Int
  encounter : Option Int
  wipes : Option Int
  difficulty : Option Int
  filter : Option String
  translate : Option Bool
deriving DecidableEq, Repr

/-- `#[derive(Default)]` for `EventFilters`. -/
def EventFilters.default : EventFilters :=
  { start := 0, «end» := 0, hostility := none, source_id := none,
    source_instance := none, source_class := none, target_id := none,
    target_instance := none, target_class := none, ability_id := none,
    death := none, options := none, cutoff := none, encounter := none,
    wipes := none, difficulty := none, filter := none, translate := none }

instance : Inhabited EventFilters := ⟨EventFilters.default⟩

/-- `struct ReportEventsList`: one page of the paginated response. -/
structure ReportEventsList where
  events : List ReportEvent
  next_page_timestamp : Option Nat
deriving DecidableEq, Repr

/-- The Event Source oracle: for a view and a filter set, the finite sequence
of pages the remote API serves for that query, consumed in fetch order. -/
def EventSource : Type := EventsView → EventFilters → List ReportEventsList

/-! ## Paginated event stream (`EventsStream`, `events.rs` lines 49-140)

Two views of the same code are embedded.

`events_stream_run` is `EventsStream::poll_next` driven to exhaustion by a
consumer, against a source that serves the given finite page sequence in
order: each recursion step is one round of the "buffer empty" branch of
`poll_next` (check the stored `next_page_timestamp`, compare it against
`filters.end`, fetch, stop on an empty page, otherwise buffer the page and
yield its events one by one via the "buffered events remain" branch).  When
the page sequence is exhausted the source answers a further fetch with an
empty page carrying no continuation timestamp.  The result records the
yielded events, every requested fetch start, and every fetched page.

`EventsStream.poll_next` further below is the single-step operational state
machine used for the reachable-state invariant. -/

structure StreamRunResult where
  out : List ReportEvent
  requests : List Nat
deriving DecidableEq, Repr

def events_stream_run (endT : Nat) : Option Nat → List ReportEventsList → StreamRunResult
  | none, _ => ⟨[], []⟩
  | some new_start, pages =>
    if endT ≤ new_start then ⟨[], []⟩
    else
      match pages with
      | [] => ⟨[], [new_start]⟩
      | next_page :: rest =>
        if next_page.events.length < 1 then ⟨[], [new_start]⟩
        else
          let r := events_stream_run endT next_page.next_page_timestamp rest
          ⟨next_page.events ++ r.out, new_start :: r.requests⟩

/-- `get_event_iterator` initialises the buffer empty and the stored
`next_page_timestamp` to `filters.start`; this is the stream's full output
for a window and a page sequence. -/
def get_event_iterator_run (filters : EventFilters) (pages : List ReportEventsList) :
    StreamRunResult :=
  events_stream_run filters.«end» (some filters.start) pages

/-- `request_all_events` (`events.rs` lines 23-47): eagerly loops
`request_events`, appending every page's events; it stops only when a page
carries no `next_page_timestamp` or when that timestamp is not below
`filters.end` — it does not stop on an empty page, and it issues the first
fetch unconditionally.  The `start` argument is the current
`updated_filters.start`. -/
def request_all_events (endT : Nat) : Nat → List ReportEventsList → List ReportEvent
  | _, [] => []
  | _start, evs_page :: rest =>
    evs_page.events ++
      (match evs_page.next_page_timestamp with
       | none => []
       | some nt => if nt < endT then request_all_events endT nt rest else [])

/-! ### Operational single-step model of `EventsStream::poll_next` -/

/-- `ApiError` is abstract here: the claims never inspect it. -/
structure ApiError where
deriving DecidableEq, Repr

/-- The fields of `struct EventsStream` that `poll_next` reads or writes;
`next_page : Bool` records whether a boxed fetch future is stored. -/
structure EventsStreamState where
  filters : EventFilters
  events : ReportEventsList
  current_event_position : Nat
  next_page : Bool
deriving DecidableEq, Repr

/-- Outcome of polling the in-flight page fetch future. -/
inductive FetchOutcome where
  | Pending
  | Error (e : ApiError)
  | Page (page : ReportEventsList)
deriving DecidableEq, Repr

instance {ε α : Type} [DecidableEq ε] [DecidableEq α] : DecidableEq (Except ε α) :=
  fun a b =>
    match a, b with
    | .error e1, .error e2 =>
      if h : e1 = e2 then .isTrue (congrArg Except.error h)
      else .isFalse (fun hh => h (Except.error.inj hh))
    | .ok v1, .ok v2 =>
      if h : v1 = v2 then .isTrue (congrArg Except.ok h)
      else .isFalse (fun hh => h (Except.ok.inj hh))
    | .error _, .ok _ => .isFalse Except.noConfusion
    | .ok _, .error _ => .isFalse Except.noConfusion

/-- `Poll<Option<Result<ReportEvent, ApiError>>>`. -/
inductive PollOutput where
  | Pending
  | Ready (item : Option (Except ApiError ReportEvent))
deriving DecidableEq, Repr

/-- `EventsStream::poll_next` as one step of a state machine, parameterised by
the outcome of polling the fetch future.  `none` models a Rust panic: the
`usize` underflow in `events.events.len() - current_event_position`, or an
out-of-bounds buffer index `events.events[current_event_position]`. -/
def EventsStream.poll_next (s : EventsStreamState) (fetch : FetchOutcome) :
    Option (EventsStreamState × PollOutput) :=
  if s.events.events.length < s.current_event_position then
    none
  else
    let remaining_events := s.events.events.length - s.current_event_position
    if remaining_events ≤ 0 then
      match s.events.next_page_timestamp with
      | none => some (s, .Ready none)
      | some new_start =>
        if s.filters.«end» ≤ new_start then some (s, .Ready none)
        else
          let s := { s with filters := { s.filters with start := new_start },
                            next_page := true }
          match fetch with
          | .Pending => some (s, .Pending)
          | .Error e => some (s, .Ready (some (.error e)))
          | .Page next_page =>
            let s := { s with next_page := false }
            if next_page.events.length < 1 then some (s, .Ready none)
            else
              let s := { s with events := ⟨s.events.events ++ next_page.events,
                                           next_page.next_page_timestamp⟩ }
              match s.events.events[s.current_event_position]? with
              | none => none
              | some res =>
                some ({ s with current_event_position := s.current_event_position + 1 },
                      .Ready (some (.ok res)))
    else
      match s.events.events[s.current_event_position]? with
      | none => none
      | some res =>
        some ({ s with current_event_position := s.current_event_position + 1 },
              .Ready (some (.ok res)))

/-- The initial stream state built by `get_event_iterator`. -/
def get_event_iterator_state (filters : EventFilters) : EventsStreamState :=
  { filters := filters,
    events := ⟨[], some filters.start⟩,
    current_event_position := 0,
    next_page := false }

/-- States of an `EventsStream` reachable from some initial state under
`poll_next` steps with arbitrary fetch outcomes. -/
inductive ReachableState : EventsStreamState → Prop where
  | init (filters : EventFilters) : ReachableState (get_event_iterator_state filters)
  | step (s s' : EventsStreamState) (fetch : FetchOutcome) (out : PollOutput) :
      ReachableState s → EventsStream.poll_next s fetch = some (s', out) →
      ReachableState s'

/-! ## Phase markers and the marker matcher
(`src/fight_analysis/phase_definition.rs`) -/

structure BeginCastMarker where
  ability_id : Int
  instance_no : Option Int
  hostility : Option Hostility
deriving DecidableEq, Repr

structure EndCastMarker where
  ability_id : Int
  instance_no : Option Int
  hostility : Option Hostility
deriving DecidableEq, Repr

structure DeathMarker where
  target_id : Int
  instance_no : Option Int
  hostility : Option Hostility
deriving DecidableEq, Repr

inductive EventMarker where
  | BeginCast (marker : BeginCastMarker)
  | EndCast (marker : EndCastMarker)
  | Death (marker : DeathMarker)
deriving DecidableEq, Repr

inductive PhaseMarker where
  | FightStartMarker
  | EventMarker (marker : EventMarker)
deriving DecidableEq, Repr

/-- `EventMarker::compare_to_event`: shape predicate (BeginCast markers only
accept `BeginCast` events, EndCast markers only `Cast` events, Death markers
only `Death` events) plus field predicate (equal ability id, or equal death
target id via `Target::get_id`).  Log-only `trace!` calls are elided. -/
def EventMarker.compare_to_event (self : EventMarker) (ev : ReportEvent) : Bool :=
  match self with
  | .BeginCast marker =>
    match ev with
    | .BeginCast ev_data => marker.ability_id == ev_data.ability.guid
    | _ => false
  | .EndCast marker =>
    match ev with
    | .Cast ev_data => marker.ability_id == ev_data.ability.guid
    | _ => false
  | .Death marker =>
    match ev with
    | .Death ev_data =>
      match ev_data.target.bind Target.get_id with
      | some id => id == marker.target_id
      | none => false
    | _ => false

/-- `EventMarker::create_event_filters`. -/
def EventMarker.create_event_filters (self : EventMarker) : EventsView × EventFilters :=
  match self with
  | .BeginCast marker =>
    (EventsView.Casts,
     { EventFilters.default with
         ability_id := some marker.ability_id,
         hostility := some (marker.hostility.getD Hostility.Hostile) })
  | .EndCast marker =>
    (EventsView.Casts,
     { EventFilters.default with
         ability_id := some marker.ability_id,
         hostility := some (marker.hostility.getD Hostility.Hostile) })
  | .Death marker =>
    (EventsView.Deaths,
     { EventFilters.default with
         target_id := some marker.target_id,
         hostility := some (marker.hostility.getD Hostility.Hostile) })

/-- `PhaseMarker::create_event_filters`. -/
def PhaseMarker.create_event_filters (self : PhaseMarker) : EventsView × EventFilters :=
  match self with
  | .FightStartMarker => (EventsView.Summary, EventFilters.default)
  | .EventMarker marker => marker.create_event_filters

/-- The `instance_no` field of whichever marker variant is present
(the `match self` at the head of `choose_from_matching`). -/
def EventMarker.instance_no : EventMarker → Option Int
  | .BeginCast m => m.instance_no
  | .EndCast m => m.instance_no
  | .Death m => m.instance_no

/-- The `while skip_count > 0 { let _ = events.try_next().await?; }` loop of
`choose_from_matching`, on the pure (error-free) remainder of the stream:
each iteration discards at most one element (`try_next` on an exhausted
stream keeps returning `None`, which the loop ignores). -/
def skip_matching : Nat → List ReportEvent → List ReportEvent
  | 0, events => events
  | n + 1, events => skip_matching n events.tail

/-- `EventMarker::choose_from_matching` on the pure list of surviving
matches: skip `instance_no` (default 0, never a negative number of
iterations) matches, then take the next one. -/
def EventMarker.choose_from_matching (self : EventMarker) (events : List ReportEvent) :
    Option ReportEvent :=
  let skip_count := self.instance_no.getD 0
  (skip_matching skip_count.toNat events).head?

/-- `EventMarker::get_matching_event`: build the derived filters/view, drive a
paginated event stream over them, keep the events passing
`compare_to_event` (the `try_filter`), and choose by instance number. -/
def EventMarker.get_matching_event (self : EventMarker) (start_time end_time : Nat)
    (source : EventSource) : Option ReportEvent :=
  let (view, filters0) := self.create_event_filters
  let filters := { filters0 with start := start_time, «end» := end_time }
  let events_stream := (get_event_iterator_run filters (source view filters)).out
  let matching := events_stream.filter (fun ev => self.compare_to_event ev)
  self.choose_from_matching matching

/-- `PhaseMarker::get_matching_event`: an `EventMarker` delegates; a
`FightStartMarker` resolves to the first event (`try_next`) of a
Summary-view stream over the window. -/
def PhaseMarker.get_matching_event (self : PhaseMarker) (start_time end_time : Nat)
    (source : EventSource) : Option ReportEvent :=
  match self with
  | .EventMarker e => e.get_matching_event start_time end_time source
  | .FightStartMarker =>
    let (view, filters0) := self.create_event_filters
    let filters := { filters0 with start := start_time, «end» := end_time }
    (get_event_iterator_run filters (source view filters)).out.head?

/-- `struct PhaseDefinitionsPhase`. -/
structure PhaseDefinitionsPhase where
  phase_name : String
  start_marker : Option PhaseMarker
  end_marker : Option PhaseMarker
deriving DecidableEq, Repr

/-! ## Phase assembler (`src/fight_analysis/analyse_fight.rs`) -/

inductive AnalysisError where
  | ApiError (e : ApiError)
  | UnknownFightError (name : String)
  | InvalidEventMatchError
  | UnspecifiedFightTime
  | UnlabeledFight
  | NoMatchingFights
  | InvalidReportCodeOrUrl
deriving DecidableEq, Repr

/-- `struct RawPhaseData` (a resolved phase). -/
structure RawPhaseData where
  phase_name : String
  phase_start : Nat
  phase_start_event : ReportEvent
  phase_end : Option Nat
  phase_end_event : Option ReportEvent
deriving DecidableEq, Repr

/-- `#[derive(Default)]` for `RawPhaseData`: empty name, start 0, default
(unparseable) start event, absent end data. -/
def RawPhaseData.default : RawPhaseData :=
  { phase_name := "", phase_start := 0,
    phase_start_event := ReportEvent.UnparseableEvent,
    phase_end := none, phase_end_event := none }

instance : Inhabited RawPhaseData := ⟨RawPhaseData.default⟩

/-- The `if let Some(marker) = &definition.end_marker` block at the end of
`analyse_phase`: the end-marker search window starts at `res.phase_start`
(whatever value that field holds at this point), and a missing match is a
valid outcome. -/
def analyse_phase_end_block (source : EventSource) (end_time : Nat)
    (definition : PhaseDefinitionsPhase) (res : RawPhaseData) : RawPhaseData :=
  match definition.end_marker with
  | none => res
  | some marker =>
    let matching_event := marker.get_matching_event res.phase_start end_time source
    { res with phase_end_event := matching_event,
               phase_end := matching_event.bind ReportEvent.get_timestamp }

/-- `analyse_phase` (lines 418-460): starts from `Default::default()` with the
definition's name; if a start marker exists, searches `[start_time, end_time)`
for it (no match means the phase is not reached, a matched event without a
timestamp is an `InvalidEventMatchError`); then resolves the end marker from
`res.phase_start`.  Note that when `start_marker` is absent, `phase_start`
keeps its `Default` value `0`. -/
def analyse_phase (source : EventSource) (start_time end_time : Nat)
    (definition : PhaseDefinitionsPhase) : Except AnalysisError (Option RawPhaseData) :=
  let res := { RawPhaseData.default with phase_name := definition.phase_name }
  match definition.start_marker with
  | some marker =>
    match marker.get_matching_event start_time end_time source with
    | none => .ok none
    | some ev =>
      match ev.get_timestamp with
      | none => .error .InvalidEventMatchError
      | some ts =>
        .ok (some (analyse_phase_end_block source end_time definition
          { res with phase_start_event := ev, phase_start := ts }))
  | none => .ok (some (analyse_phase_end_block source end_time definition res))

/-- The forward pass of `analyse_fight` (lines 369-387): runs `analyse_phase`
per definition left to right, advancing `latest_time_processed` to
`phase_end.unwrap_or(phase_start)`, and breaks out of the loop at the first
unresolved phase.  The result is instrumented (last two components) with the
final `latest_time_processed` and the list of phase names for which
`analyse_phase` — and hence the Event Source — was invoked. -/
def analyse_fight_forward (source : EventSource) (end_time : Nat) :
    Nat → List PhaseDefinitionsPhase →
    Except AnalysisError (List RawPhaseData × Nat × List String)
  | latest_time_processed, [] => .ok ([], latest_time_processed, [])
  | latest_time_processed, phase_definition :: rest =>
    match analyse_phase source latest_time_processed end_time phase_definition with
    | .error e => .error e
    | .ok none => .ok ([], latest_time_processed, [phase_definition.phase_name])
    | .ok (some phase) =>
      match analyse_fight_forward source end_time
        (phase.phase_end.getD phase.phase_start) rest with
      | .error e => .error e
      | .ok (phs, final_cursor, calls) =>
        .ok (phase :: phs, final_cursor, phase_definition.phase_name :: calls)

/-- The backfill loop of `analyse_fight` (lines 388-406): for each phase that
has a successor, if its `phase_end_event` is `None`, copy the successor's
start event and start timestamp into its end fields; the last phase (and an
empty list) is left untouched. -/
def backfill_phases : List RawPhaseData → List RawPhaseData
  | [] => []
  | [cur_phase] => [cur_phase]
  | cur_phase :: next_phase :: rest =>
    let cur2 :=
      if cur_phase.phase_end_event.isNone then
        { cur_phase with phase_end_event := some next_phase.phase_start_event,
                         phase_end := some next_phase.phase_start }
      else cur_phase
    cur2 :: backfill_phases (next_phase :: rest)

/-- `analyse_fight` (lines 362-416), reduced to the phase list it computes
(the fight metadata it copies alongside is immaterial here): forward pass
from the fight's start time, then backfill. -/
def analyse_fight (source : EventSource) (start_time end_time : Nat)
    (definitions : List PhaseDefinitionsPhase) :
    Except AnalysisError (List RawPhaseData) :=
  match analyse_fight_forward source end_time start_time definitions with
  | .error e => .error e
  | .ok (analysed_phases, _, _) => .ok (backfill_phases analysed_phases)

/-! ## Duration / clear classification and report aggregation -/

inductive ClearedStatus where
  | Clear
  | Wiped
  | Unknown
deriving DecidableEq, Repr, BEq

structure PhaseProgress where
  phase_name : String
  phase_duration_secs : Rat
  phase_cleared : ClearedStatus
deriving DecidableEq, Repr

/-- `struct FightAnalysis` (the borrowed definitions vector is modelled as an
owned list). -/
structure FightAnalysis where
  fight_name : String
  report_code : String
  definitions : List PhaseDefinitionsPhase
  start_time : Nat
  end_time : Nat
  phases : List RawPhaseData
deriving DecidableEq, Repr

/-- `struct FightStatistics`; the `chrono` wall-clock values are abstracted to
their underlying millisecond values. -/
structure FightStatistics where
  fight_name : String
  fight_start : Option Nat
  fight_end : Option Nat
  duration : Rat
  prog : List PhaseProgress
  definitions : List PhaseDefinitionsPhase
deriving DecidableEq, Repr

/-- One iteration of the `while let Some(phase) = phase_iter.next()` loop of
`get_pull_stats` (lines 147-186), given the peeked successor: a phase with a
successor gets `phase_end.unwrap_or(next.phase_start) - phase_start` and
`Clear`; the last phase gets `end - start` and `Clear` when its end is known,
else `fight_end - start` with `Wiped`/`Unknown` decided by the phase's
position in the full definition list. -/
def progress_entry (raw_data : FightAnalysis) (phase : RawPhaseData)
    (next_phase? : Option RawPhaseData) : PhaseProgress :=
  let dc : Nat × ClearedStatus :=
    match next_phase? with
    | some next_phase =>
      (phase.phase_end.getD next_phase.phase_start - phase.phase_start,
       ClearedStatus.Clear)
    | none =>
      match phase.phase_end with
      | some end_time => (end_time - phase.phase_start, ClearedStatus.Clear)
      | none =>
        let definitions := raw_data.definitions
        let total_fight_phases := definitions.length
        let cleared :=
          match definitions.findIdx? (fun d => d.phase_name == phase.phase_name) with
          | none => ClearedStatus.Unknown
          | some idx =>
            if idx < total_fight_phases - 1 then ClearedStatus.Wiped
            else ClearedStatus.Unknown
        (raw_data.end_time - phase.phase_start, cleared)
  { phase_name := phase.phase_name,
    phase_duration_secs := (dc.1 : Rat) / 1000,
    phase_cleared := dc.2 }

/-- The full progress loop of `get_pull_stats` over the resolved phases. -/
def pull_phase_progress (raw_data : FightAnalysis) :
    List RawPhaseData → List PhaseProgress
  | [] => []
  | phase :: rest =>
    progress_entry raw_data phase rest.head? :: pull_phase_progress raw_data rest

/-- `get_pull_stats` (lines 128-196). -/
def get_pull_stats (raw_data : FightAnalysis) (report_start_millis : Nat) :
    FightStatistics :=
  { fight_name := raw_data.fight_name,
    fight_start := some (raw_data.start_time + report_start_millis),
    fight_end := some (raw_data.end_time + report_start_millis),
    duration := ((raw_data.end_time - raw_data.start_time : Nat) : Rat) / 1000,
    prog := pull_phase_progress raw_data raw_data.phases,
    definitions := raw_data.definitions }

structure PhaseStatistics where
  name : String
  total_time_spent_secs : Rat
  clear_rate : Rat
  seen_rate : Rat
  seen_count : Int
deriving DecidableEq, Repr

structure ReportSummary where
  phases : List PhaseStatistics
  average_duration : Rat
  pull_count : Int
  total_time_spent_in_fights : Rat
deriving DecidableEq, Repr

/-- The inner per-fight loop body of `summarise_report` for one phase
definition, as a left-fold step over `(time, seen_count, cleared_count)`;
`position` followed by indexing is the first matching entry, i.e. `find?`. -/
def summarise_phase_fold (phase : PhaseDefinitionsPhase)
    (acc : Rat × Int × Int) (fight : FightStatistics) : Rat × Int × Int :=
  match fight.prog.find? (fun ph => ph.phase_name == phase.phase_name) with
  | none => acc
  | some phase_prog_data =>
    (acc.1 + phase_prog_data.phase_duration_secs,
     acc.2.1 + 1,
     acc.2.2 + (if phase_prog_data.phase_cleared == ClearedStatus.Clear then 1 else 0))

/-- `summarise_report` (lines 65-116): an empty input yields the all-zero
summary; otherwise the definitions are taken from the first fight and each
phase's statistics are accumulated over all fights. -/
def summarise_report (fight_stats : List FightStatistics) : ReportSummary :=
  match fight_stats with
  | [] =>
    { phases := [], average_duration := 0, pull_count := 0,
      total_time_spent_in_fights := 0 }
  | first_fight :: _ =>
    let definitions := first_fight.definitions
    let phases := definitions.map (fun phase =>
      let acc := fight_stats.foldl (summarise_phase_fold phase) (0, 0, 0)
      ({ name := phase.phase_name,
         total_time_spent_secs := acc.1,
         clear_rate := (acc.2.2 : Rat) / (acc.2.1 : Rat),
         seen_rate := (acc.2.1 : Rat) / (fight_stats.length : Rat),
         seen_count := acc.2.1 } : PhaseStatistics))
    let total_time := fight_stats.foldl (fun acc fight => acc + fight.duration) (0 : Rat)
    { phases := phases,
      average_duration := total_time / (fight_stats.length : Rat),
      pull_count := (fight_stats.length : Int),
      total_time_spent_in_fights := total_time }

/-- Each fight's entry for the named phase (its first progress item carrying
that phase name), across all fights that have one. -/
def phase_entries (phase : PhaseDefinitionsPhase)
    (fight_stats : List FightStatistics) : List PhaseProgress :=
  fight_stats.filterMap
    (fun f => f.prog.find? (fun ph => ph.phase_name == phase.phase_name))

/-- The aggregation formulas exactly as the specification words them (written
from the spec for comparison with `summarise_report`): per phase definition in
definition order, `seen_count` is the number of fights whose progress list
contains the phase name, `total_time_spent_secs` sums those fights' durations
for that phase, `clear_rate` and `seen_rate` are the stated ratios; report
level: pull count, average duration and total time over all fights; an empty
input yields the all-zero summary. -/
def spec_summarise_report (fight_stats : List FightStatistics) : ReportSummary :=
  match fight_stats with
  | [] =>
    { phases := [], average_duration := 0, pull_count := 0,
      total_time_spent_in_fights := 0 }
  | first_fight :: _ =>
    { phases := first_fight.definitions.map (fun phase =>
        let entries := phase_entries phase fight_stats
        let seen_count : Int := entries.length
        let cleared_count : Int :=
          (entries.filter (fun e => e.phase_cleared == ClearedStatus.Clear)).length
        { name := phase.phase_name,
          total_time_spent_secs := (entries.map (fun e => e.phase_duration_secs)).sum,
          clear_rate := (cleared_count : Rat) / (seen_count : Rat),
          seen_rate := (seen_count : Rat) / (fight_stats.length : Rat),
          seen_count := seen_count }),
      average_duration :=
        (fight_stats.map (fun f => f.duration)).sum / (fight_stats.length : Rat),
      pull_count := (fight_stats.length : Int),
      total_time_spent_in_fights := (fight_stats.map (fun f => f.duration)).sum }

/-- `impl Display for PhaseStatistics` (lines 49-63).  The `{:.1}` fixed-point
number formatting of the nonzero branch is abstracted to `toString` of the
exact rational; the zero-seen branch renders no number at all. -/
def PhaseStatistics.display (self : PhaseStatistics) : String :=
  let clear_rate_pct := self.clear_rate * 100
  let seen_rate_pct := self.seen_rate * 100
  if self.seen_count = 0 then
    "**" ++ self.name ++ "**: This phase was never seen."
  else
    "**" ++ self.name ++ "**:\nA total of " ++ toString self.total_time_spent_secs
      ++ "s was spent practicing this phase, with a clear rate of "
      ++ toString clear_rate_pct ++ "%.\nThis phase was seen "
      ++ toString self.seen_count ++ " times (" ++ toString seen_rate_pct
      ++ "% of pulls)"

/-- `impl Display for ReportSummary` (lines 25-38): the header line followed
by each phase's rendering on its own line. -/
def ReportSummary.display (self : ReportSummary) : String :=
  "Total pulls: " ++ toString self.pull_count ++ " with average duration "
    ++ toString self.average_duration ++ "s.\nA total of "
    ++ toString self.total_time_spent_in_fights
    ++ "s was spent in battle with individual phase progress as follows: \n"
    ++ String.join (self.phases.map (fun phase => phase.display ++ "\n"))

/-! ## Concrete sample data used by counterexamples and witnesses -/

def sampleSource : Source :=
  { id := some 1, source_data := none, is_friendly := false, resources := none }

def sampleAbility : Ability :=
  { name := "Attack", guid := 42, ability_type := 1, icon := none }

/-- A completed-cast event of ability 42 at the given timestamp. -/
def sampleCast (ts : Nat) : ReportEvent :=
  .Cast { timestamp := ts, source := sampleSource, target := none,
          ability := sampleAbility, packet_id := none }

/-- A death event for target id `tgt` at the given timestamp. -/
def sampleDeath (ts : Nat) (tgt : Int) : ReportEvent :=
  .Death { timestamp := ts, source := sampleSource,
           target := some { id := some tgt, target_data := none,
                            is_friendly := false, resources := none },
           ability := none, killer_id := none, killing_ability := none }

/-- An Event Source that answers every query with no pages at all. -/
def sourceNoEvents : EventSource := fun _ _ => []

/-! ## C1 — pagination -/

/-- C1, counterexample.  The claim says the stream yields exactly the
concatenation of the fetched pages' events *whose timestamp lies in the
window `[s, e)`*.  `poll_next` performs no client-side timestamp filtering:
for the window `[0, 10)` and a single page holding one event with timestamp
50, the stream yields that out-of-window event, while the claimed filtered
concatenation is empty. -/
theorem c1_counterexample :
    ¬ ((get_event_iterator_run { EventFilters.default with start := 0, «end» := 10 }
          [⟨[sampleCast 50], none⟩]).out
        = ((([(⟨[sampleCast 50], none⟩ : ReportEventsList)].take
              (get_event_iterator_run { EventFilters.default with start := 0, «end» := 10 }
                [⟨[sampleCast 50], none⟩]).requests.length).map
                  ReportEventsList.events).flatten.filter
            (fun ev =>
              match ev.get_timestamp with
              | some t => decide (0 ≤ t) && decide (t < 10)
              | none => false))) := by
  decide

/-- The stream terminates immediately once the stored cursor is absent. -/
theorem events_stream_run_none (endT : Nat) (pages : List ReportEventsList) :
    events_stream_run endT none pages = ⟨[], []⟩ := by
  cases pages <;> rfl

/-- The stream terminates immediately once the stored cursor reaches the
window's end. -/
theorem events_stream_run_stop (endT new_start : Nat) (pages : List ReportEventsList)
    (h : endT ≤ new_start) :
    events_stream_run endT (some new_start) pages = ⟨[], []⟩ := by
  cases pages <;> simp [events_stream_run, h]

/-- C1, amended: for every window and every finite page sequence, the stream
yields exactly the concatenation of the fetched pages' events — all of them,
in page order, with no timestamp filtering (the window only bounds which
fetches are issued) — and then terminates; and it never issues a page fetch
whose requested start is `≥` the window's end.  The fetched pages are the
prefix of the source's page sequence consumed by the run, one page per
recorded request (a request past the end of the sequence fetches an empty
page contributing no events, which `List.take` models by exhaustion). -/
theorem c1_pagination_amended (endT : Nat) (cursor : Option Nat)
    (pages : List ReportEventsList) :
    (events_stream_run endT cursor pages).out
      = ((pages.take (events_stream_run endT cursor pages).requests.length).map
          ReportEventsList.events).flatten
    ∧ ∀ s ∈ (events_stream_run endT cursor pages).requests, s < endT := by
  induction pages generalizing cursor with
  | nil =>
    cases cursor with
    | none => simp [events_stream_run]
    | some new_start =>
      by_cases h : endT ≤ new_start <;> simp [events_stream_run, h] <;> omega
  | cons next_page rest ih =>
    cases cursor with
    | none => simp [events_stream_run]
    | some new_start =>
      by_cases h : endT ≤ new_start
      · simp [events_stream_run, h]
      · by_cases hp : next_page.events.length < 1
        · have hev : next_page.events = [] := List.length_eq_zero.mp (by omega)
          simp [events_stream_run, h, hp, hev]
          omega
        · obtain ⟨ih1, ih2⟩ := ih next_page.next_page_timestamp
          simp [events_stream_run, h, hp, ih1]
          constructor
          · omega
          · exact ih2

/-- Closed witness for `c1_pagination_amended` at a concrete two-page run. -/
theorem c1_pagination_amended_witness :
    (events_stream_run 10 (some 0) [⟨[sampleCast 1], some 4⟩, ⟨[sampleCast 5], none⟩]).out
      = ((([(⟨[sampleCast 1], some 4⟩ : ReportEventsList), ⟨[sampleCast 5], none⟩].take
            (events_stream_run 10 (some 0)
              [⟨[sampleCast 1], some 4⟩, ⟨[sampleCast 5], none⟩]).requests.length).map
          ReportEventsList.events).flatten)
    ∧ ∀ s ∈ (events_stream_run 10 (some 0)
          [⟨[sampleCast 1], some 4⟩, ⟨[sampleCast 5], none⟩]).requests, s < 10 :=
  c1_pagination_amended 10 (some 0) [⟨[sampleCast 1], some 4⟩, ⟨[sampleCast 5], none⟩]

/-! ## C2 — eager whole-window variant vs lazy stream -/

/-- C2, counterexample.  The claim says `request_all_events` terminates under
the same rules as the lazy stream, including stopping when a fetched page is
empty, and returns the same list.  It does not: on an empty first page with
continuation timestamp 1 (below the window end 10), the stream stops and
yields nothing, while `request_all_events` keeps paging and returns the
second page's event. -/
theorem c2_counterexample :
    ¬ (request_all_events 10 0 [⟨[], some 1⟩, ⟨[sampleCast 5], none⟩]
        = (events_stream_run 10 (some 0) [⟨[], some 1⟩, ⟨[sampleCast 5], none⟩]).out) := by
  decide

/-- C2, amended: `request_all_events` stops only when a page carries no
`next_page_timestamp` or when that timestamp is `≥` the window's end — not on
an empty page.  Provided the window start lies below its end and every page
the source serves is nonempty, it returns the same ordered event list as
exhaustively driving the lazy stream for the same window. -/
theorem c2_eager_lazy_agreement (endT start : Nat) (pages : List ReportEventsList)
    (hstart : start < endT) (hnonempty : ∀ p ∈ pages, p.events ≠ []) :
    request_all_events endT start pages = (events_stream_run endT (some start) pages).out := by
  induction pages generalizing start with
  | nil =>
    simp [request_all_events, events_stream_run, Nat.not_le.mpr hstart]
  | cons evs_page rest ih =>
    have hne : evs_page.events ≠ [] := hnonempty evs_page (List.mem_cons_self _ _)
    have hlen : ¬ evs_page.events.length < 1 := by
      have := List.length_pos.mpr hne
      omega
    have hrest : ∀ p ∈ rest, p.events ≠ [] :=
      fun p hp => hnonempty p (List.mem_cons_of_mem _ hp)
    simp only [request_all_events, events_stream_run, Nat.not_le.mpr hstart, if_false,
      hlen]
    cases hnt : evs_page.next_page_timestamp with
    | none => simp [events_stream_run_none]
    | some nt =>
      by_cases hlt : nt < endT
      · simp [hlt, ih nt hlt hrest]
      · simp [hlt, events_stream_run_stop endT nt rest (Nat.le_of_not_lt hlt)]

/-- Closed witness for `c2_eager_lazy_agreement` on a nonempty single page. -/
theorem c2_eager_lazy_agreement_witness :
    request_all_events 10 0 [⟨[sampleCast 5], none⟩]
      = (events_stream_run 10 (some 0) [⟨[sampleCast 5], none⟩]).out :=
  c2_eager_lazy_agreement 10 0 [⟨[sampleCast 5], none⟩] (by decide) (by decide)

/-! ## C4 — matcher skip correctness -/

/-- The skip loop discards exactly the first `n` elements. -/
theorem skip_matching_eq_drop (n : Nat) (l : List ReportEvent) :
    skip_matching n l = l.drop n := by
  induction n generalizing l with
  | zero => rfl
  | succ m ih =>
    cases l with
    | nil => simp [skip_matching, ih]
    | cons a l => simp [skip_matching, ih]

/-- C4: for every EventMatch marker and window, `get_matching_event` returns
the `(k+1)`-th event (0-indexed, `k` the marker's `instance_no` defaulting
to 0; a negative `instance_no` behaves like 0 since the skip loop does not
run) of the derived stream satisfying both the shape predicate and the field
predicate of `compare_to_event`, or `none` when fewer than `k+1` such events
exist in the window.  The error path is not represented: the Event Source
oracle is error-free. -/
theorem c4_matcher_skip (marker : EventMarker) (start_time end_time : Nat)
    (source : EventSource) :
    marker.get_matching_event start_time end_time source
      = (let view := marker.create_event_filters.1
         let filters := { marker.create_event_filters.2 with
                            start := start_time, «end» := end_time }
         ((get_event_iterator_run filters (source view filters)).out.filter
            (fun ev => marker.compare_to_event ev))[(marker.instance_no.getD 0).toNat]?) := by
  rcases hcf : marker.create_event_filters with ⟨view, filters0⟩
  simp only [EventMarker.get_matching_event, EventMarker.choose_from_matching, hcf,
    skip_matching_eq_drop]
  rw [List.head?_drop]

/-! ## C3 — phase with no start marker starts at 0, not at the cursor -/

/-- The Event Source used for the C3 failing input: the Deaths view serves a
single page holding one death of target 7 at timestamp 100, but only for a
query whose window starts at 0; any other query yields nothing. -/
def srcC3 : EventSource := fun view f =>
  match view with
  | .Deaths => if f.start = 0 then [⟨[sampleDeath 100 7], none⟩] else []
  | _ => []

/-- The phase definition of the C3 failing input: no start marker, and an end
marker matching a death of target 7. -/
def defC3 : PhaseDefinitionsPhase :=
  { phase_name := "A", start_marker := none,
    end_marker := some (.EventMarker (.Death ⟨7, none, none⟩)) }

/-- C3: evaluation of `analyse_phase` at the failing input.  With the cursor
(`start_time`) at 5000 and a phase definition with no start marker, the code
records `phase_start = 0` (the `Default` value) — not the cursor — and the
end-marker search window begins at 0, not at the cursor: the end marker is
resolved to the death at timestamp 100, which only a search window starting
at 0 can see (and which lies before the cursor). -/
theorem c3_start_marker_absent_failing_input :
    analyse_phase srcC3 5000 20000 defC3
      = .ok (some { phase_name := "A", phase_start := 0,
                    phase_start_event := .UnparseableEvent,
                    phase_end := some 100,
                    phase_end_event := some (sampleDeath 100 7) })
    ∧ (0 : Nat) ≠ 5000 ∧ 100 < 5000 := by
  decide

/-! ## C5 — assembler hard stop -/

/-- One-step unfolding of the forward pass on a nonempty definition list. -/
theorem analyse_fight_forward_cons (source : EventSource) (end_time latest : Nat)
    (d : PhaseDefinitionsPhase) (rest : List PhaseDefinitionsPhase) :
    analyse_fight_forward source end_time latest (d :: rest)
      = match analyse_phase source latest end_time d with
        | .error e => .error e
        | .ok none => .ok ([], latest, [d.phase_name])
        | .ok (some phase) =>
          match analyse_fight_forward source end_time
              (phase.phase_end.getD phase.phase_start) rest with
          | .error e => .error e
          | .ok (phs, final_cursor, calls) =>
            .ok (phase :: phs, final_cursor, d.phase_name :: calls) := rfl

/-- C5: if the forward pass fully resolves the definitions `defs1` (reaching
the cursor `c`), and phase `d`'s start-marker search from `c` finds no match
(`analyse_phase` returns `none`), then for the definition list
`defs1 ++ d :: defs2` the forward pass records exactly the phases of `defs1`
— phase `d` and everything after it is not reached — and `analyse_phase`
(hence the Event Source) is invoked only for `defs1` and `d`, never for any
definition in `defs2`; `analyse_fight` accordingly returns the backfilled
`defs1` phases. -/
theorem c5_hard_stop (source : EventSource) (end_time start : Nat)
    (defs1 : List PhaseDefinitionsPhase) (d : PhaseDefinitionsPhase)
    (defs2 : List PhaseDefinitionsPhase) (phs : List RawPhaseData) (c : Nat)
    (hpre : analyse_fight_forward source end_time start defs1
        = .ok (phs, c, defs1.map PhaseDefinitionsPhase.phase_name))
    (hfull : phs.length = defs1.length)
    (hstop : analyse_phase source c end_time d = .ok none) :
    analyse_fight_forward source end_time start (defs1 ++ d :: defs2)
      = .ok (phs, c, defs1.map PhaseDefinitionsPhase.phase_name ++ [d.phase_name])
    ∧ analyse_fight source start end_time (defs1 ++ d :: defs2)
      = .ok (backfill_phases phs) := by
  have hfwd : analyse_fight_forward source end_time start (defs1 ++ d :: defs2)
      = .ok (phs, c, defs1.map PhaseDefinitionsPhase.phase_name ++ [d.phase_name]) := by
    induction defs1 generalizing start phs with
    | nil =>
      simp only [analyse_fight_forward, List.map_nil, Except.ok.injEq, Prod.mk.injEq] at hpre
      obtain ⟨rfl, rfl, -⟩ := hpre
      simp [analyse_fight_forward_cons, hstop]
    | cons d1 rest ih =>
      rw [List.cons_append]
      rw [analyse_fight_forward_cons] at hpre ⊢
      generalize analyse_phase source start end_time d1 = ap at hpre ⊢
      cases ap with
      | error e =>
        exact absurd hpre (by simp)
      | ok o =>
        cases o with
        | none =>
          simp only [Except.ok.injEq, Prod.mk.injEq] at hpre
          obtain ⟨rfl, -, -⟩ := hpre
          simp at hfull
        | some phase =>
          simp only at hpre ⊢
          generalize hrec : analyse_fight_forward source end_time
              (phase.phase_end.getD phase.phase_start) rest = fr at hpre
          cases fr with
          | error e =>
            exact absurd hpre (by simp)
          | ok triple =>
            rcases triple with ⟨phs', c', calls'⟩
            simp only [Except.ok.injEq, Prod.mk.injEq] at hpre
            obtain ⟨hphs, hc, hcalls⟩ := hpre
            subst hc
            have hlen : phs'.length = rest.length := by
              have h2 := congrArg List.length hphs
              simp at h2 hfull
              omega
            have hcall : calls' = rest.map PhaseDefinitionsPhase.phase_name := by
              simpa using hcalls
            subst hcall
            rw [ih (phase.phase_end.getD phase.phase_start) phs' hrec hlen]
            simp [← hphs]
  refine ⟨hfwd, ?_⟩
  simp [analyse_fight, hfwd]

/-- Closed witness for `c5_hard_stop`: a source with no events at all, an
empty resolved prefix and one definition after the stopping one. -/
theorem c5_hard_stop_witness :
    analyse_fight_forward sourceNoEvents 100 0
        ([] ++ { phase_name := "S",
                 start_marker := some (.EventMarker (.Death ⟨7, none, none⟩)),
                 end_marker := none } ::
          [{ phase_name := "T", start_marker := none, end_marker := none }])
      = .ok ([], 0, [] ++ ["S"])
    ∧ analyse_fight sourceNoEvents 0 100
        ([] ++ { phase_name := "S",
                 start_marker := some (.EventMarker (.Death ⟨7, none, none⟩)),
                 end_marker := none } ::
          [{ phase_name := "T", start_marker := none, end_marker := none }])
      = .ok (backfill_phases []) :=
  c5_hard_stop sourceNoEvents 100 0 []
    { phase_name := "S",
      start_marker := some (.EventMarker (.Death ⟨7, none, none⟩)),
      end_marker := none }
    [{ phase_name := "T", start_marker := none, end_marker := none }]
    [] 0 (by decide) (by decide) (by decide)

/-! ## C6 — backfill -/

/-- Event Source for the C6 counterexample: the Summary view serves one page
whose single event is unrecognised, so it carries no timestamp. -/
def srcC6 : EventSource := fun view _ =>
  match view with
  | .Summary => [⟨[.UnparseableEvent], none⟩]
  | _ => []

/-- Definitions for the C6 counterexample: phase "A" ends on a FightStart
marker (resolved from the Summary view), phase "B" has no markers. -/
def defsC6 : List PhaseDefinitionsPhase :=
  [ { phase_name := "A", start_marker := none, end_marker := some .FightStartMarker },
    { phase_name := "B", start_marker := none, end_marker := none } ]

/-- C6, counterexample.  The claim: after backfill, every resolved phase
except the last whose end *timestamp* was absent after the forward pass has
that end set to the next resolved phase's start.  The code keys backfill on
the end *event* being absent: here phase "A" resolves with
`phase_end_event = some UnparseableEvent` (its end marker matched the
unrecognised event, which has no timestamp), so its `phase_end` is absent
after the forward pass and it is not the last resolved phase — yet backfill
leaves its end `none` instead of phase "B"'s start timestamp 0. -/
theorem c6_counterexample :
    analyse_fight_forward srcC6 1000 500 defsC6
      = .ok ([ { phase_name := "A", phase_start := 0,
                 phase_start_event := .UnparseableEvent,
                 phase_end := none,
                 phase_end_event := some .UnparseableEvent },
               { phase_name := "B", phase_start := 0,
                 phase_start_event := .UnparseableEvent,
                 phase_end := none, phase_end_event := none } ], 0, ["A", "B"])
    ∧ analyse_fight srcC6 500 1000 defsC6
      = .ok [ { phase_name := "A", phase_start := 0,
                phase_start_event := .UnparseableEvent,
                phase_end := none,
                phase_end_event := some .UnparseableEvent },
              { phase_name := "B", phase_start := 0,
                phase_start_event := .UnparseableEvent,
                phase_end := none, phase_end_event := none } ]
    ∧ (none : Option Nat) ≠ some 0 := by
  decide

/-- C6, amended: backfill preserves the list's length; a phase with a
successor has its end timestamp (and end event) set from the successor's
start exactly when its end *event* is absent — a phase whose end event is
present but carries no timestamp keeps its absent end timestamp — and the
last resolved phase is never modified. -/
theorem c6_backfill_amended (phases : List RawPhaseData) :
    (backfill_phases phases).length = phases.length
    ∧ (∀ i p q, phases[i]? = some p → phases[i + 1]? = some q →
        (backfill_phases phases)[i]?
          = some (if p.phase_end_event.isNone then
                    { p with phase_end_event := some q.phase_start_event,
                             phase_end := some q.phase_start }
                  else p))
    ∧ (∀ p, phases[phases.length - 1]? = some p →
        (backfill_phases phases)[phases.length - 1]? = some p) := by
  induction phases with
  | nil =>
    refine ⟨rfl, ?_, ?_⟩
    · intro i p q hp hq
      simp at hp
    · intro p hp
      simp at hp
  | cons p rest ih =>
    cases rest with
    | nil =>
      refine ⟨rfl, ?_, ?_⟩
      · intro i p' q' hp hq
        cases i with
        | zero => simp at hq
        | succ n => simp at hq
      · intro p' hp
        simpa [backfill_phases] using hp
    | cons q rest' =>
      obtain ⟨ihlen, ihidx, ihlast⟩ := ih
      refine ⟨?_, ?_, ?_⟩
      · simp only [backfill_phases, List.length_cons]
        simp only [List.length_cons] at ihlen
        omega
      · intro i p' q' hp hq
        cases i with
        | zero =>
          simp only [List.getElem?_cons_zero, Option.some.injEq] at hp
          simp only [List.getElem?_cons_succ, List.getElem?_cons_zero,
            Option.some.injEq] at hq
          subst hp
          subst hq
          simp [backfill_phases]
        | succ n =>
          rw [List.getElem?_cons_succ] at hp hq
          simpa [backfill_phases] using ihidx n p' q' hp hq
      · intro p' hp
        simp only [List.length_cons, Nat.add_sub_cancel, List.getElem?_cons_succ] at hp
        have h2 := ihlast p' (by simpa using hp)
        simp only [backfill_phases, List.length_cons, Nat.add_sub_cancel,
          List.getElem?_cons_succ]
        simpa using h2

/-- Sample resolved phases for the `c6_backfill_amended` witness. -/
def rpA : RawPhaseData :=
  { phase_name := "A", phase_start := 10, phase_start_event := sampleCast 10,
    phase_end := none, phase_end_event := none }

def rpB : RawPhaseData :=
  { phase_name := "B", phase_start := 20, phase_start_event := sampleCast 20,
    phase_end := none, phase_end_event := none }

/-- Closed witness for `c6_backfill_amended` on a two-phase list. -/
theorem c6_backfill_amended_witness :
    (backfill_phases [rpA, rpB])[0]?
      = some (if rpA.phase_end_event.isNone then
                { rpA with phase_end_event := some rpB.phase_start_event,
                           phase_end := some rpB.phase_start }
              else rpA)
    ∧ (backfill_phases [rpA, rpB])[[rpA, rpB].length - 1]? = some rpB :=
  ⟨(c6_backfill_amended [rpA, rpB]).2.1 0 rpA rpB (by decide) (by decide),
   (c6_backfill_amended [rpA, rpB]).2.2 rpB (by decide)⟩

/-! ## C7 — duration / clear classification -/

/-- The phase-progress loop preserves the number of phases. -/
theorem pull_phase_progress_length (raw_data : FightAnalysis)
    (l : List RawPhaseData) :
    (pull_phase_progress raw_data l).length = l.length := by
  induction l with
  | nil => rfl
  | cons p rest ih => simp [pull_phase_progress, ih]

/-- Index-wise characterisation of the phase-progress loop: entry `i` is
computed from phase `i` and the peeked phase `i + 1`. -/
theorem pull_phase_progress_getElem (raw_data : FightAnalysis)
    (l : List RawPhaseData) (i : Nat) :
    (pull_phase_progress raw_data l)[i]?
      = (l[i]?).map (fun p => progress_entry raw_data p l[i + 1]?) := by
  induction l generalizing i with
  | nil => simp [pull_phase_progress]
  | cons p rest ih =>
    cases i with
    | zero =>
      simp [pull_phase_progress, List.head?_eq_getElem?]
    | succ n =>
      simp only [pull_phase_progress, List.getElem?_cons_succ, ih]

/-- C7: in `get_pull_stats`, a phase with a successor is classified `Clear`
and, when its end is known, gets duration `end − start`; the last phase with
a known end is also `Clear` with duration `end − start`; a last phase with
no known end gets duration `fight_end − start` and is `Wiped` exactly when
its position in the full phase-definition list is not the last position,
`Unknown` when it is.  Durations are in seconds (`millis / 1000`, rationals
standing in for `f32`). -/
theorem c7_classification (raw_data : FightAnalysis) (report_start_millis : Nat) :
    (get_pull_stats raw_data report_start_millis).prog.length = raw_data.phases.length
    ∧ (∀ i p next pr,
        raw_data.phases[i]? = some p → raw_data.phases[i + 1]? = some next →
        (get_pull_stats raw_data report_start_millis).prog[i]? = some pr →
        pr.phase_cleared = ClearedStatus.Clear
        ∧ (∀ e, p.phase_end = some e →
            pr.phase_duration_secs = ((e - p.phase_start : Nat) : Rat) / 1000))
    ∧ (∀ i p pr,
        raw_data.phases[i]? = some p → raw_data.phases[i + 1]? = none →
        (get_pull_stats raw_data report_start_millis).prog[i]? = some pr →
        (∀ e, p.phase_end = some e →
          pr.phase_cleared = ClearedStatus.Clear
          ∧ pr.phase_duration_secs = ((e - p.phase_start : Nat) : Rat) / 1000)
        ∧ (p.phase_end = none →
          pr.phase_duration_secs
            = ((raw_data.end_time - p.phase_start : Nat) : Rat) / 1000
          ∧ (∀ idx, raw_data.definitions.findIdx?
                (fun d => d.phase_name == p.phase_name) = some idx →
              idx < raw_data.definitions.length →
              pr.phase_cleared =
                (if idx = raw_data.definitions.length - 1 then ClearedStatus.Unknown
                 else ClearedStatus.Wiped)))) := by
  refine ⟨?_, ?_, ?_⟩
  · simpa [get_pull_stats] using
      pull_phase_progress_length raw_data raw_data.phases
  · intro i p next pr hp hnext hpr
    rw [show (get_pull_stats raw_data report_start_millis).prog
          = pull_phase_progress raw_data raw_data.phases from rfl,
        pull_phase_progress_getElem, hp, hnext] at hpr
    simp only [Option.map_some', Option.some.injEq] at hpr
    subst hpr
    refine ⟨rfl, ?_⟩
    intro e he
    simp [progress_entry, he]
  · intro i p pr hp hlast hpr
    rw [show (get_pull_stats raw_data report_start_millis).prog
          = pull_phase_progress raw_data raw_data.phases from rfl,
        pull_phase_progress_getElem, hp, hlast] at hpr
    simp only [Option.map_some', Option.some.injEq] at hpr
    subst hpr
    constructor
    · intro e he
      exact ⟨by simp [progress_entry, he], by simp [progress_entry, he]⟩
    · intro hnone
      refine ⟨by simp [progress_entry, hnone], ?_⟩
      intro idx hidx hbound
      simp only [progress_entry, hnone, hidx]
      by_cases hlastpos : idx = raw_data.definitions.length - 1
      · have : ¬ idx < raw_data.definitions.length - 1 := by omega
        simp [this, hlastpos]
      · have : idx < raw_data.definitions.length - 1 := by omega
        simp [this, hlastpos]

/-- Concrete resolved phases for the `c7_classification` witness: "X" with a
known end, "Y" (the last resolved phase) with none. -/
def rpX : RawPhaseData :=
  { phase_name := "X", phase_start := 1000, phase_start_event := sampleCast 1000,
    phase_end := some 3000, phase_end_event := some (sampleCast 3000) }

def rpY : RawPhaseData :=
  { phase_name := "Y", phase_start := 3000, phase_start_event := sampleCast 3000,
    phase_end := none, phase_end_event := none }

/-- A fight resolving phases "X" and "Y" out of the three defined phases
"X", "Y", "Z". -/
def rawC7 : FightAnalysis :=
  { fight_name := "F", report_code := "R",
    definitions := [ { phase_name := "X", start_marker := none, end_marker := none },
                     { phase_name := "Y", start_marker := none, end_marker := none },
                     { phase_name := "Z", start_marker := none, end_marker := none } ],
    start_time := 0, end_time := 10000,
    phases := [rpX, rpY] }

/-- The progress entry `get_pull_stats` emits for the last resolved phase of
`rawC7`: reached but wiped, 7 seconds long. -/
def prY : PhaseProgress :=
  { phase_name := "Y", phase_duration_secs := 7, phase_cleared := ClearedStatus.Wiped }

/-- Closed witness for `c7_classification` at the fight `rawC7`. -/
theorem c7_classification_witness :
    prY.phase_duration_secs = ((rawC7.end_time - rpY.phase_start : Nat) : Rat) / 1000
    ∧ prY.phase_cleared
        = (if 1 = rawC7.definitions.length - 1 then ClearedStatus.Unknown
           else ClearedStatus.Wiped) := by
  have hpr : (get_pull_stats rawC7 0).prog[1]? = some prY := by
    simp [get_pull_stats, pull_phase_progress, progress_entry, rawC7, prY, rpX, rpY]
    norm_num
  have h := (c7_classification rawC7 0).2.2 1 rpY prY (by decide) (by decide) hpr
  obtain ⟨-, h2⟩ := h
  obtain ⟨hd, hcl⟩ := h2 rfl
  exact ⟨hd, hcl 1 (by decide) (by decide)⟩

/-! ## C8 — report aggregation -/

/-- The per-phase accumulation loop of `summarise_report`, run over all
fights, computes the spec's filtered sums and counts on top of its starting
accumulator. -/
theorem summarise_phase_fold_spec (phase : PhaseDefinitionsPhase)
    (fight_stats : List FightStatistics) (acc : Rat × Int × Int) :
    fight_stats.foldl (summarise_phase_fold phase) acc
      = (acc.1 + ((phase_entries phase fight_stats).map
            (fun e => e.phase_duration_secs)).sum,
         acc.2.1 + ((phase_entries phase fight_stats).length : Int),
         acc.2.2 + (((phase_entries phase fight_stats).filter
            (fun e => e.phase_cleared == ClearedStatus.Clear)).length : Int)) := by
  induction fight_stats generalizing acc with
  | nil => simp [phase_entries]
  | cons f rest ih =>
    rw [List.foldl_cons]
    cases hf : f.prog.find? (fun ph => ph.phase_name == phase.phase_name) with
    | none =>
      have he : phase_entries phase (f :: rest) = phase_entries phase rest := by
        simp [phase_entries, List.filterMap_cons, hf]
      have hsf : summarise_phase_fold phase acc f = acc := by
        simp [summarise_phase_fold, hf]
      rw [he, hsf, ih]
    | some d =>
      have he : phase_entries phase (f :: rest) = d :: phase_entries phase rest := by
        simp [phase_entries, List.filterMap_cons, hf]
      have hsf : summarise_phase_fold phase acc f
          = (acc.1 + d.phase_duration_secs, acc.2.1 + 1,
             acc.2.2 + (if d.phase_cleared == ClearedStatus.Clear then 1 else 0)) := by
        simp [summarise_phase_fold, hf]
      rw [he, hsf, ih]
      simp only [List.map_cons, List.sum_cons, List.filter_cons, List.length_cons]
      by_cases hc : d.phase_cleared == ClearedStatus.Clear
      · simp only [hc, if_true, List.length_cons, Prod.mk.injEq]
        refine ⟨?_, ?_, ?_⟩ <;> push_cast <;> ring
      · simp only [hc, Bool.false_eq_true, if_false, Prod.mk.injEq]
        refine ⟨?_, ?_, ?_⟩ <;> push_cast <;> ring

/-- The total-time loop of `summarise_report` sums the fight durations. -/
theorem foldl_duration_spec (fight_stats : List FightStatistics) (a : Rat) :
    fight_stats.foldl (fun acc fight => acc + fight.duration) a
      = a + (fight_stats.map (fun f => f.duration)).sum := by
  induction fight_stats generalizing a with
  | nil => simp
  | cons f rest ih => simp [ih, add_assoc]

/-- C8: `summarise_report` computes exactly the specification's aggregation
formulas — per phase definition in definition order `seen_count`,
`total_time_spent_secs`, `clear_rate = cleared/seen` and
`seen_rate = seen/pulls`, and at report level `pull_count`,
`average_duration = total/pulls` and `total_time_spent_in_fights` — and on
an empty input returns pull count 0, average duration 0 and no phases,
without any error value.  Instantiating at the spec's three-fight example
yields its stated numbers; ratios are exact rationals standing in for
`f32` (in particular the `0/0` clear rate is the rational 0, the stand-in
for the unguarded float division's NaN). -/
theorem c8_summarise_matches_spec (fight_stats : List FightStatistics) :
    summarise_report fight_stats = spec_summarise_report fight_stats := by
  cases fight_stats with
  | nil => rfl
  | cons first_fight rest =>
    simp only [summarise_report, spec_summarise_report, summarise_phase_fold_spec,
      foldl_duration_spec]
    simp

/-! ## C9 — zero-seen phases render as "never seen" -/

/-- C9: any phase statistics row produced by `summarise_report` whose
`seen_count` is 0 renders as the explicit never-seen message — a string that
contains the phase name and no number at all — and the rendering is
independent of the row's `clear_rate`, so the 0/0 rate (`NaN` in the
original's floats) never reaches the output. -/
theorem c9_zero_seen_renders_never_seen (fight_stats : List FightStatistics)
    (ps : PhaseStatistics) (hmem : ps ∈ (summarise_report fight_stats).phases)
    (hseen : ps.seen_count = 0) :
    ps.display = "**" ++ ps.name ++ "**: This phase was never seen."
    ∧ ∀ q : Rat, ({ ps with clear_rate := q } : PhaseStatistics).display = ps.display := by
  refine ⟨by simp [PhaseStatistics.display, hseen], ?_⟩
  intro q
  simp [PhaseStatistics.display, hseen]

/-- A fight whose progress list is empty while its definitions name one
phase: that phase is seen zero times. -/
def fightNeverSeen : FightStatistics :=
  { fight_name := "F", fight_start := none, fight_end := none, duration := 0,
    prog := [],
    definitions := [{ phase_name := "P", start_marker := none, end_marker := none }] }

/-- The phase-statistics row `summarise_report` produces for the never-seen
phase of `fightNeverSeen`. -/
def psNeverSeen : PhaseStatistics :=
  { name := "P", total_time_spent_secs := 0, clear_rate := 0, seen_rate := 0,
    seen_count := 0 }

/-- The never-seen phase really appears in the aggregated summary. -/
theorem psNeverSeen_mem : psNeverSeen ∈ (summarise_report [fightNeverSeen]).phases := by
  have h : (summarise_report [fightNeverSeen]).phases = [psNeverSeen] := by
    simp [summarise_report, summarise_phase_fold, fightNeverSeen, psNeverSeen]
  rw [h]
  exact List.mem_singleton_self _

/-- Closed witness for `c9_zero_seen_renders_never_seen`. -/
theorem c9_zero_seen_witness :
    psNeverSeen.display = "**" ++ psNeverSeen.name ++ "**: This phase was never seen." :=
  (c9_zero_seen_renders_never_seen [fightNeverSeen] psNeverSeen
    psNeverSeen_mem (by decide)).1

/-! ## C10 — stream state invariant -/

/-- From any state satisfying the buffer-cursor invariant, `poll_next` never
panics: the `usize` subtraction `events.events.len() - current_event_position`
cannot underflow and every buffer index it uses is in bounds (`poll_next`
returns `none` exactly on those panics). -/
theorem poll_next_ne_none (s : EventsStreamState)
    (hinv : s.current_event_position ≤ s.events.events.length)
    (fetch : FetchOutcome) :
    EventsStream.poll_next s fetch ≠ none := by
  have h1 : ¬ s.events.events.length < s.current_event_position := by omega
  by_cases h2 : s.events.events.length - s.current_event_position ≤ 0
  · cases hnt : s.events.next_page_timestamp with
    | none => simp [EventsStream.poll_next, h1, h2, hnt]
    | some new_start =>
      by_cases h3 : s.filters.«end» ≤ new_start
      · simp [EventsStream.poll_next, h1, h2, hnt, h3]
      · cases fetch with
        | Pending => simp [EventsStream.poll_next, h1, h2, hnt, h3]
        | Error e => simp [EventsStream.poll_next, h1, h2, hnt, h3]
        | Page next_page =>
          by_cases h4 : next_page.events.length < 1
          · simp [EventsStream.poll_next, h1, h2, hnt, h3, h4]
          · have hlt : s.current_event_position
                < (s.events.events ++ next_page.events).length := by
              rw [List.length_append]; omega
            simp [EventsStream.poll_next, h1, h2, hnt, h3, h4,
              List.getElem?_eq_getElem hlt]
  · have hlt : s.current_event_position < s.events.events.length := by omega
    simp [EventsStream.poll_next, h1, h2, List.getElem?_eq_getElem hlt]

/-- A `poll_next` step from a state satisfying the buffer-cursor invariant
reaches a state satisfying it again. -/
theorem poll_next_preserves_inv (s s' : EventsStreamState) (fetch : FetchOutcome)
    (out : PollOutput)
    (hinv : s.current_event_position ≤ s.events.events.length)
    (hstep : EventsStream.poll_next s fetch = some (s', out)) :
    s'.current_event_position ≤ s'.events.events.length := by
  have h1 : ¬ s.events.events.length < s.current_event_position := by omega
  by_cases h2 : s.events.events.length - s.current_event_position ≤ 0
  · cases hnt : s.events.next_page_timestamp with
    | none =>
      simp only [EventsStream.poll_next, h1, if_false, h2, if_true, hnt,
        Option.some.injEq, Prod.mk.injEq] at hstep
      obtain ⟨heq, -⟩ := hstep
      subst heq
      exact hinv
    | some new_start =>
      by_cases h3 : s.filters.«end» ≤ new_start
      · simp only [EventsStream.poll_next, h1, if_false, h2, if_true, hnt, h3,
          Option.some.injEq, Prod.mk.injEq] at hstep
        obtain ⟨heq, -⟩ := hstep
        subst heq
        exact hinv
      · cases fetch with
        | Pending =>
          simp only [EventsStream.poll_next, h1, if_false, h2, if_true, hnt, h3,
            Option.some.injEq, Prod.mk.injEq] at hstep
          obtain ⟨heq, -⟩ := hstep
          subst heq
          exact hinv
        | Error e =>
          simp only [EventsStream.poll_next, h1, if_false, h2, if_true, hnt, h3,
            Option.some.injEq, Prod.mk.injEq] at hstep
          obtain ⟨heq, -⟩ := hstep
          subst heq
          exact hinv
        | Page next_page =>
          by_cases h4 : next_page.events.length < 1
          · simp only [EventsStream.poll_next, h1, if_false, h2, if_true, hnt, h3, h4,
              Option.some.injEq, Prod.mk.injEq] at hstep
            obtain ⟨heq, -⟩ := hstep
            subst heq
            exact hinv
          · have hlt : s.current_event_position
                < (s.events.events ++ next_page.events).length := by
              rw [List.length_append]; omega
            simp only [EventsStream.poll_next, h1, if_false, h2, if_true, hnt, h3, h4,
              List.getElem?_eq_getElem hlt, Option.some.injEq, Prod.mk.injEq] at hstep
            obtain ⟨heq, -⟩ := hstep
            subst heq
            simp only [List.length_append]
            omega
  · have hlt : s.current_event_position < s.events.events.length := by omega
    simp only [EventsStream.poll_next, h1, if_false, h2, if_true,
      List.getElem?_eq_getElem hlt, Option.some.injEq, Prod.mk.injEq] at hstep
    obtain ⟨heq, -⟩ := hstep
    subst heq
    exact Nat.succ_le_of_lt hlt

/-- C10: every reachable state of an `EventsStream` — the initial state of
`get_event_iterator` closed under `poll_next` steps with arbitrary fetch
outcomes — satisfies `current_event_position ≤ events.events.length`;
consequently `poll_next` never panics from that state: the remaining-events
subtraction cannot underflow and the buffer index is always in bounds
(`poll_next` returns `none` exactly on those panics). -/
theorem c10_reachable_invariant (s : EventsStreamState) (h : ReachableState s) :
    s.current_event_position ≤ s.events.events.length
    ∧ ∀ fetch, EventsStream.poll_next s fetch ≠ none := by
  have hinv : s.current_event_position ≤ s.events.events.length := by
    induction h with
    | init filters => simp [get_event_iterator_state]
    | step t t' fetch out hr hstep ih =>
      exact poll_next_preserves_inv t t' fetch out ih hstep
  exact ⟨hinv, fun fetch => poll_next_ne_none s hinv fetch⟩

/-- Closed witness for `c10_reachable_invariant` at the initial state. -/
theorem c10_reachable_invariant_witness :
    (get_event_iterator_state EventFilters.default).current_event_position
        ≤ (get_event_iterator_state EventFilters.default).events.events.length
    ∧ EventsStream.poll_next (get_event_iterator_state EventFilters.default)
        FetchOutcome.Pending ≠ none := by
  have h := c10_reachable_invariant (get_event_iterator_state EventFilters.default)
    (ReachableState.init EventFilters.default)
  exact ⟨h.1, h.2 FetchOutcome.Pending⟩

end Kusanagi
